import Mathlib

/-!
Verification development for the BLS time-series client (`bls/api.py`).

The Python module is shallowly embedded below.  Machine integers are `Int`
(Python integers are unbounded), fallible code returns `Except`, the HTTP
transport is a parameter (`fetch`), and the process-wide warning log of a
call is returned as data alongside the outcome.
-/

/-- One raw observation row of a BLS series, as found in the JSON payload.
`year` is modelled as the integer the year string denotes (the code only
ever feeds it through `pd.to_datetime`, which parses it back to a calendar
year), `period` is the raw period code string (e.g. `"M01"`), and `value`
is the raw value string. -/
structure Obs where
  year : Int
  period : String
  value : String
deriving DecidableEq

/-- One series entry of the `Results.series` list: a series id together
with its ordered observation rows (`α` is the row type; the pagination
logic never inspects rows, so it is kept generic). -/
structure SeriesData (α : Type) where
  seriesID : String
  data : List α
deriving DecidableEq

/-- The form body of one physical POST to the BLS endpoint, as built by
`_get_json_subset`: `seriesid` is the comma-joined series list, plus the
year range and the optional `registrationkey` field. -/
structure PhysCall where
  seriesid : String
  startyear : Int
  endyear : Int
  registrationkey : Option String
deriving DecidableEq

/-- The JSON response envelope of one physical call:
`{status, message, Results: {series}}`. -/
structure Envelope (α : Type) where
  status : String
  message : List String
  series : List (SeriesData α)

/-- The `series` argument of `get_json_series` / `get_series`: Python
accepts either a bare string or a sequence of strings. -/
inductive SeriesArg where
  | str (s : String)
  | list (l : List String)
deriving DecidableEq

/-- `isinstance(series, str)`. -/
def seriesIsStr : SeriesArg → Bool
  | .str _ => true
  | .list _ => false

/-- Python `len(series)` on the original argument (characters for a bare
string, elements for a sequence). -/
def seriesLen : SeriesArg → Nat
  | .str s => s.length
  | .list l => l.length

/-- The wrapping `if isinstance(series, str): series = [series]` at the top
of `get_json_series`. -/
def normalizeSeries : SeriesArg → List String
  | .str s => [s]
  | .list l => l

/-- `key = key if key is not None else _KEY.key`: an explicit key argument
takes precedence over the credential holder's key. -/
def resolveKey (key envKey : Option String) : Option String :=
  match key with
  | some k => some k
  | none => envKey

/-- Building the form body of `_get_json_subset`:
`{"seriesid": ",".join(series), "startyear": ..., "endyear": ...}` plus
`registrationkey` when a key is present. -/
def buildRequest (series : List String) (sy ey : Int) (key : Option String) : PhysCall :=
  ⟨String.intercalate "," series, sy, ey, key⟩

/-- The envelope handling of `_get_json_subset`: first every entry of the
`message` list is logged as a warning (returned here as the first
component), then a `RuntimeError` is raised unless `status` is
`"REQUEST_SUCCEEDED"`, and on success `Results.series` is returned. -/
def get_json_subset_handle {α : Type} (resp : Envelope α) :
    List String × Except String (List (SeriesData α)) :=
  (resp.message,
    if resp.status ≠ "REQUEST_SUCCEEDED" then
      Except.error ("Got status " ++ resp.status)
    else
      Except.ok resp.series)

/-- Phase one of year resolution in `get_json_series`
(`if endyear is None or (endyear > thisyear): ...`). -/
def resolveEnd (sy0 ey0 : Option Int) (kr : Option String) (ty : Int) : Int :=
  match ey0 with
  | none =>
    match sy0, kr with
    | none, _ => ty
    | some _, some _ => ty
    | some s, none => min (s + 9) ty
  | some e =>
    if e > ty then
      match sy0, kr with
      | none, _ => ty
      | some _, some _ => ty
      | some s, none => min (s + 9) ty
    else e

/-- Phase two of year resolution in `get_json_series`
(`if not startyear: startyear = endyear - (9 if key is None else 19)`).
Note the Python test is truthiness, so a supplied `startyear` of `0` is
treated like an absent one. -/
def resolveStart (sy0 : Option Int) (eR : Int) (kr : Option String) : Int :=
  match sy0 with
  | none => eR - (if kr = none then 9 else 19)
  | some s => if s = 0 then eR - (if kr = none then 9 else 19) else s

/-- The full year-resolution step of `get_json_series`, returning the
effective `(startyear, endyear)` pair. -/
def resolveYears (sy0 ey0 : Option Int) (kr : Option String) (ty : Int) : Int × Int :=
  (resolveStart sy0 (resolveEnd sy0 ey0 kr ty) kr, resolveEnd sy0 ey0 kr ty)

/-- The pagination loop window sequence of `get_json_series`: starting
from the current `(sub_start, sub_end)` pair, the loop body issues a call
for that window, then advances `sub_start = sub_end + 1`,
`sub_end = min(sub_end + 20, endyear)`, and stops once `sub_start`
exceeds `endyear`. -/
def windowsGo (e a b : Int) : List (Int × Int) :=
  (a, b) ::
    (if b + 1 > e then []
     else windowsGo e (b + 1) (min (b + 20) e))
termination_by (e - b).toNat
decreasing_by
  simp_wf
  omega

/-- `collections.defaultdict(list)` with Python's insertion-ordered keys:
`keys` lists the keys in first-insertion order and `vals` is the total
mapping (default `[]`). -/
structure DD (α : Type) where
  keys : List String
  vals : String → List α

/-- The empty defaultdict. -/
def emptyDD {α : Type} : DD α := ⟨[], fun _ => []⟩

/-- `compiled_results[result["seriesID"]].extend(result["data"])`:
accessing the key inserts it (at the end, if new) and the row list is
extended. -/
def addResult {α : Type} (acc : DD α) (r : SeriesData α) : DD α :=
  ⟨if r.seriesID ∈ acc.keys then acc.keys else acc.keys ++ [r.seriesID],
   fun k => if k = r.seriesID then acc.vals k ++ r.data else acc.vals k⟩

/-- `[{"seriesID": i, "data": j} for i, j in compiled_results.items()]`. -/
def ddToList {α : Type} (d : DD α) : List (SeriesData α) :=
  d.keys.map (fun k => ⟨k, d.vals k⟩)

/-- The physical calls of the pagination branch: one per window, each with
the comma-joined series, the window's years and the resolved key. -/
def paginatedCalls (ser : List String) (kr : Option String) (s e : Int) : List PhysCall :=
  (windowsGo e s (s + 18)).map (fun w => buildRequest ser w.1 w.2 kr)

/-- Issuing a list of physical calls in order and folding every returned
series entry into the defaultdict, as the pagination loop body does. -/
def runCalls {α : Type} (fetch : PhysCall → List (SeriesData α)) (calls : List PhysCall) :
    List (SeriesData α) :=
  ddToList (calls.foldl (fun acc c => (fetch c).foldl addResult acc) emptyDD)

/-- `get_json_series`, with the network abstracted by `fetch` (the
`Results.series` list a successful physical call returns for a given form
body) and the credential holder's key passed as `envKey`.  The result is
the list of physical calls issued, in order, together with the outcome:
`Except.error` models the raised `ValueError`. -/
def get_json_series {α : Type} (fetch : PhysCall → List (SeriesData α)) (series : SeriesArg)
    (sy0 ey0 : Option Int) (key envKey : Option String) (ty : Int) :
    List PhysCall × Except String (List (SeriesData α)) :=
  let ser := normalizeSeries series
  let kr := resolveKey key envKey
  let sy := (resolveYears sy0 ey0 kr ty).1
  let ey := (resolveYears sy0 ey0 kr ty).2
  if kr = none ∧ ey - sy ≥ 10 then
    ([], Except.error "Must use API key to retrieve more than 10 years")
  else if sy ≠ 0 ∧ ey - sy ≥ 20 then
    (paginatedCalls ser kr sy ey,
      Except.ok (runCalls fetch (paginatedCalls ser kr sy ey)))
  else
    ([buildRequest ser sy ey kr], Except.ok (fetch (buildRequest ser sy ey kr)))

/-- A period index value, as produced by `to_period` with frequency
`A-JAN`, `Q` or `M` respectively. -/
inductive Period where
  | annual (y : Int)
  | quarterly (y q : Int)
  | monthly (y m : Int)
deriving DecidableEq

/-- Frequency rank of a period (periods of one parsed series always share
a frequency). -/
def Period.rank : Period → Int
  | .annual _ => 0
  | .quarterly _ _ => 1
  | .monthly _ _ => 2

/-- Calendar year of a period. -/
def Period.year : Period → Int
  | .annual y => y
  | .quarterly y _ => y
  | .monthly y _ => y

/-- Sub-year component of a period (0 for annual). -/
def Period.sub : Period → Int
  | .annual _ => 0
  | .quarterly _ q => q
  | .monthly _ m => m

/-- The period ordering used by `sort_index`: lexicographic on frequency
rank, year, sub-year component. -/
def perLe (p q : Period) : Prop :=
  p.rank < q.rank ∨ (p.rank = q.rank ∧ (p.year < q.year ∨ (p.year = q.year ∧ p.sub ≤ q.sub)))

instance perLeDec : DecidableRel perLe := fun p q => by
  unfold perLe
  infer_instance

/-- Integer denoted by a string of decimal digits, used to model the
numeric suffix extraction `pd.to_datetime` performs on the date strings
the code assembles (junk on non-digit input, where the real parser would
fail). -/
def digitSuffixVal (cs : List Char) : Int :=
  cs.foldl (fun acc c => acc * 10 + ((c.toNat : Int) - (('0').toNat : Int))) 0

/-- The quarter digit extracted by `pd.to_datetime` from
`year.str.cat(period.str.replace("Q0", "Q"))`: the numeric suffix of the
period code. -/
def quarterOf (p : String) : Int :=
  digitSuffixVal (p.data.drop 1)

/-- The month extracted by `pd.to_datetime` from
`year.str.cat(period.str.replace("M", "-"))`: the numeric suffix of the
period code. -/
def monthOf (p : String) : Int :=
  digitSuffixVal (p.data.drop 1)

/-- Whether `pd.to_datetime` can parse the monthly date string assembled
for one row (`year` + `"-"` + month suffix): the month must lie in 1..12.
The `"M13"` sentinel assembles to `"<year>-13"`, which no pandas parsing
path accepts. -/
def monthInRange (p : String) : Bool :=
  decide (1 ≤ monthOf p) && decide (monthOf p ≤ 12)

/-- `parse_series`: empty data raises a `ValueError`; otherwise dispatch
on the first character of the first observation's period code, building
the dated `value` column.  In the monthly branch the code dates **every**
row first (`df.assign(date=pd.to_datetime(...))` evaluates its argument
over the whole column) and only then filters out the `"M13"` rows
(`[df["period"] != "M13"]`); a month suffix outside 1..12 — the `"M13"`
sentinel in particular — makes `pd.to_datetime` raise before the filter
runs.  An unrecognized leading character raises the
`Unknown period format` `ValueError`. -/
def parse_series (s : SeriesData Obs) : Except String (List (Period × String)) :=
  match s.data with
  | [] =>
    Except.error ("No data received for series " ++ s.seriesID ++
      "! Are your parameters correct?")
  | o :: _ =>
    match o.period.data with
    | [] => Except.error "IndexError: string index out of range"
    | c :: _ =>
      if c = 'A' then
        Except.ok (s.data.map (fun r => (Period.annual r.year, r.value)))
      else if c = 'Q' then
        Except.ok (s.data.map (fun r => (Period.quarterly r.year (quarterOf r.period), r.value)))
      else if c = 'M' then
        if s.data.all (fun r => monthInRange r.period) then
          Except.ok
            ((s.data.filter (fun r => r.period ≠ "M13")).map
              (fun r => (Period.monthly r.year (monthOf r.period), r.value)))
        else
          Except.error "ValueError: month must be in 1..12"
      else
        Except.error ("Unknown period format: " ++ o.period)

/-- A Python `float` value; claims never inspect floating-point
arithmetic, so the cast is modelled as an opaque tagging of the numeral
string it was applied to. -/
inductive PyFloat where
  | ofString (s : String)
deriving DecidableEq

/-- The outcome of `get_series`: a raised exception (identified by its
message), a bare value sequence (single bare-string request), or a keyed
table.  The `warned` flag records whether `warnings.warn` was called. -/
inductive GetSeriesOutcome where
  | error (msg : String)
  | bare (warned : Bool) (col : List (Period × PyFloat))
  | table (warned : Bool) (cols : List (String × List (Period × PyFloat)))
deriving DecidableEq

/-- The dict comprehension
`{res["seriesID"]: parse_series(res) for res in results if res["data"]}`
applied to an already-filtered list: the first parse failure propagates. -/
def traverseParse : List (SeriesData Obs) →
    Except String (List (String × List (Period × String)))
  | [] => Except.ok []
  | r :: rest =>
    match parse_series r with
    | Except.error m => Except.error m
    | Except.ok entries =>
      match traverseParse rest with
      | Except.error m => Except.error m
      | Except.ok t => Except.ok ((r.seriesID, entries) :: t)

instance entryLeDec : DecidableRel (fun (a b : Period × PyFloat) => perLe a.1 b.1) :=
  fun a b => inferInstanceAs (Decidable (perLe a.1 b.1))

/-- `sort_index()` on one column: sort the entries ascending by period. -/
def sortEntries (l : List (Period × PyFloat)) : List (Period × PyFloat) :=
  List.insertionSort (fun a b => perLe a.1 b.1) l

/-- `.map(float)` on one column. -/
def floatCol (l : List (Period × String)) : List (Period × PyFloat) :=
  l.map (fun e => (e.1, PyFloat.ofString e.2))

/-- The ids of requested series that came back with no observations. -/
def invalidIds {α : Type} (rs : List (SeriesData α)) : List String :=
  (rs.filter (fun r => r.data.isEmpty)).map (fun r => r.seriesID)

/-- Python's `repr` of a list of strings, as interpolated into the
empty-series diagnostic (`f"... {invalid_ids} ..."`). -/
def pyListRepr (l : List String) : String :=
  "[" ++ String.intercalate ", " (l.map (fun s => "\x27" ++ s ++ "\x27")) ++ "]"

/-- The empty-series diagnostic message of `get_series`. -/
def emptyMsg (ids : List String) : String :=
  "No data received for series " ++ pyListRepr ids ++ "! Are your parameters correct?"

/-- The fatal condition for the empty-series error: single bare string
request, or every requested series invalid, or policy `"raise"`. -/
def raiseCond (series : SeriesArg) (invalid : List String) (errors : String) : Bool :=
  seriesIsStr series || invalid.length == seriesLen series || errors == "raise"

/-- The table-building tail of `get_series`: parse every series that has
data, cast values to float, sort each column by period, and collapse to a
bare sequence (`df[df.columns[0]]`) when the original request was a bare
string. -/
def buildFrame (series : SeriesArg) (warned : Bool) (results : List (SeriesData Obs)) :
    GetSeriesOutcome :=
  match traverseParse (results.filter (fun r => !r.data.isEmpty)) with
  | Except.error m => GetSeriesOutcome.error m
  | Except.ok cols =>
    match series, cols.map (fun c => (c.1, sortEntries (floatCol c.2))) with
    | .str _, [] => GetSeriesOutcome.error "IndexError: index 0 is out of bounds"
    | .str _, c :: _ => GetSeriesOutcome.bare warned c.2
    | .list _, cols2 => GetSeriesOutcome.table warned cols2

/-- `get_series`: fetch via `get_json_series`, apply the empty-series
error policy, then build the table. -/
def get_series (fetch : PhysCall → List (SeriesData Obs)) (series : SeriesArg)
    (sy0 ey0 : Option Int) (key envKey : Option String) (errors : String) (ty : Int) :
    GetSeriesOutcome :=
  match (get_json_series fetch series sy0 ey0 key envKey ty).2 with
  | Except.error msg => GetSeriesOutcome.error msg
  | Except.ok results =>
    let invalid := invalidIds results
    if invalid = [] then buildFrame series false results
    else if raiseCond series invalid errors then GetSeriesOutcome.error (emptyMsg invalid)
    else buildFrame series true results

/-- Per-series concatenation of the observation rows appearing for `sid`
across a flat list of raw results, in order. -/
def concatFor {α : Type} (sid : String) (rs : List (SeriesData α)) : List α :=
  ((rs.filter (fun r => r.seriesID == sid)).map (fun r => r.data)).flatten

/-- Lookup of a series id in a result list (first entry wins), returning
its data. -/
def seriesLookup {α : Type} (sid : String) (rs : List (SeriesData α)) : Option (List α) :=
  (rs.find? (fun r => r.seriesID == sid)).map (fun r => r.data)

/-- Year resolution transcribed from the spec's wording, amended only in
the second step: "if `start_year` is still unset **or zero**" instead of
"still unset" (the code's truthiness test treats a supplied `0` as
absent).  Used to compare the code's resolver against the spec. -/
def resolveYearsSpec (sy0 ey0 : Option Int) (kr : Option String) (ty : Int) : Int × Int :=
  let e1 :=
    if ey0 = none ∨ ey0.getD 0 > ty then
      if sy0 = none ∨ kr ≠ none then ty else min (sy0.getD 0 + 9) ty
    else ey0.getD 0
  let s1 :=
    if sy0 = none ∨ sy0 = some 0 then e1 - (if kr = none then 9 else 19)
    else sy0.getD 0
  (s1, e1)

deriving instance DecidableEq for Except

/-! ## Helper lemmas -/

theorem intercalate_singleton (s : String) : String.intercalate "," [s] = s := by
  rfl

/-- Every physical call issued by `get_json_series` carries the
comma-joined normalized series list as its `seriesid` form field. -/
theorem trace_seriesid {α : Type} (fetch : PhysCall → List (SeriesData α)) (series : SeriesArg)
    (sy0 ey0 : Option Int) (key envKey : Option String) (ty : Int) :
    ∀ c ∈ (get_json_series fetch series sy0 ey0 key envKey ty).1,
      c.seriesid = String.intercalate "," (normalizeSeries series) := by
  intro c hc
  simp only [get_json_series] at hc
  split at hc
  · simp at hc
  · split at hc
    · simp only [paginatedCalls, List.mem_map] at hc
      obtain ⟨w, -, rfl⟩ := hc
      rfl
    · simp only [List.mem_singleton] at hc
      subst hc
      rfl

theorem windowsGo_eq (e a b : Int) :
    windowsGo e a b =
      (a, b) :: (if b + 1 > e then [] else windowsGo e (b + 1) (min (b + 20) e)) := by
  rw [windowsGo]

theorem windowsGo_chain (e a b : Int) :
    List.Chain' (fun w w2 : Int × Int => w2.1 = w.2 + 1 ∧ w2.2 = min (w.2 + 20) e)
      (windowsGo e a b) := by
  induction a, b using windowsGo.induct e with
  | _ a b ih =>
    rw [windowsGo_eq]
    by_cases h : b + 1 > e
    · simp [h]
    · rw [if_neg h]
      refine List.chain'_cons'.mpr ⟨?_, ih h⟩
      intro w2 hw2
      rw [windowsGo_eq] at hw2
      simp only [List.head?_cons, Option.mem_def, Option.some.injEq] at hw2
      subst hw2
      exact ⟨rfl, rfl⟩

theorem windowsGo_fst_lb (e : Int) :
    ∀ a b : Int, ∀ w ∈ windowsGo e a b, a ≤ b → a ≤ w.1 := by
  intro a b
  induction a, b using windowsGo.induct e with
  | _ a b ih =>
    intro w hw hab
    rw [windowsGo_eq] at hw
    rcases List.mem_cons.mp hw with rfl | hw2
    · exact le_refl a
    · by_cases h : b + 1 > e
      · rw [if_pos h] at hw2
        simp at hw2
      · rw [if_neg h] at hw2
        have hb1 : b + 1 ≤ min (b + 20) e := le_min (by omega) (by omega)
        have := ih h w hw2 hb1
        omega

theorem windowsGo_cover (e : Int) :
    ∀ a b : Int, a ≤ b → b ≤ e → ∀ y : Int,
      ((∃ w ∈ windowsGo e a b, w.1 ≤ y ∧ y ≤ w.2) ↔ (a ≤ y ∧ y ≤ e)) := by
  intro a b
  induction a, b using windowsGo.induct e with
  | _ a b ih =>
    intro hab hbe y
    rw [windowsGo_eq]
    by_cases h : b + 1 > e
    · have hbe2 : b = e := by omega
      subst hbe2
      rw [if_pos h]
      constructor
      · rintro ⟨w, hw, hy1, hy2⟩
        rcases List.mem_cons.mp hw with rfl | hw2
        · exact ⟨hy1, hy2⟩
        · simp at hw2
      · rintro ⟨hy1, hy2⟩
        exact ⟨(a, b), by simp, hy1, hy2⟩
    · rw [if_neg h]
      have hb1 : b + 1 ≤ min (b + 20) e := le_min (by omega) (by omega)
      have hbe1 : min (b + 20) e ≤ e := min_le_right _ _
      have ihy := ih h hb1 hbe1 y
      constructor
      · rintro ⟨w, hw, hy1, hy2⟩
        rcases List.mem_cons.mp hw with rfl | hw2
        · exact ⟨hy1, by omega⟩
        · have := ihy.mp ⟨w, hw2, hy1, hy2⟩
          exact ⟨by omega, this.2⟩
      · rintro ⟨hy1, hy2⟩
        by_cases hyb : y ≤ b
        · exact ⟨(a, b), by simp, hy1, hyb⟩
        · obtain ⟨w, hw, hp⟩ := ihy.mpr ⟨by omega, hy2⟩
          exact ⟨w, List.mem_cons_of_mem _ hw, hp⟩

theorem windowsGo_disjoint (e : Int) :
    ∀ a b : Int, a ≤ b → b ≤ e →
      List.Pairwise (fun w w2 : Int × Int => w.2 < w2.1) (windowsGo e a b) := by
  intro a b
  induction a, b using windowsGo.induct e with
  | _ a b ih =>
    intro hab hbe
    rw [windowsGo_eq]
    by_cases h : b + 1 > e
    · simp [h]
    · rw [if_neg h]
      have hb1 : b + 1 ≤ min (b + 20) e := le_min (by omega) (by omega)
      refine List.pairwise_cons.mpr ⟨?_, ih h hb1 (min_le_right _ _)⟩
      intro w hw
      have := windowsGo_fst_lb e (b + 1) (min (b + 20) e) w hw hb1
      omega

theorem windowsGo_span (e : Int) :
    ∀ a b : Int, b - a ≤ 19 → ∀ w ∈ windowsGo e a b, w.2 - w.1 ≤ 19 := by
  intro a b
  induction a, b using windowsGo.induct e with
  | _ a b ih =>
    intro hab w hw
    rw [windowsGo_eq] at hw
    rcases List.mem_cons.mp hw with rfl | hw2
    · exact hab
    · by_cases h : b + 1 > e
      · rw [if_pos h] at hw2
        simp at hw2
      · rw [if_neg h] at hw2
        have hmin : min (b + 20) e ≤ b + 20 := min_le_left _ _
        exact ih h (by omega) w hw2

theorem vals_foldl {α : Type} (rs : List (SeriesData α)) :
    ∀ (d : DD α) (sid : String),
      (rs.foldl addResult d).vals sid = d.vals sid ++ concatFor sid rs := by
  induction rs with
  | nil =>
    intro d sid
    simp [concatFor]
  | cons r rest ih =>
    intro d sid
    rw [List.foldl_cons, ih]
    by_cases h : r.seriesID = sid
    · subst h
      simp [addResult, concatFor, List.filter_cons]
    · have h2 : ¬(sid = r.seriesID) := fun hx => h hx.symm
      simp [addResult, concatFor, List.filter_cons, h, h2]

theorem mem_addResult_keys {α : Type} (d : DD α) (r : SeriesData α) (sid : String) :
    sid ∈ (addResult d r).keys ↔ sid ∈ d.keys ∨ sid = r.seriesID := by
  by_cases hk : r.seriesID ∈ d.keys
  · simp only [addResult, if_pos hk]
    constructor
    · exact Or.inl
    · rintro (h | rfl)
      · exact h
      · exact hk
  · simp [addResult, if_neg hk]

theorem keys_foldl_mem {α : Type} (rs : List (SeriesData α)) :
    ∀ (d : DD α) (sid : String),
      (sid ∈ (rs.foldl addResult d).keys ↔ sid ∈ d.keys ∨ ∃ r ∈ rs, r.seriesID = sid) := by
  induction rs with
  | nil =>
    intro d sid
    simp
  | cons r rest ih =>
    intro d sid
    rw [List.foldl_cons, ih, mem_addResult_keys]
    constructor
    · rintro ((h | h) | ⟨r2, hr2, hs2⟩)
      · exact Or.inl h
      · exact Or.inr ⟨r, List.mem_cons_self _ _, h.symm⟩
      · exact Or.inr ⟨r2, List.mem_cons_of_mem _ hr2, hs2⟩
    · rintro (h | ⟨r2, hr2, hs2⟩)
      · exact Or.inl (Or.inl h)
      · rcases List.mem_cons.mp hr2 with rfl | hr3
        · exact Or.inl (Or.inr hs2.symm)
        · exact Or.inr ⟨r2, hr3, hs2⟩

theorem seriesLookup_ddToList {α : Type} (d : DD α) (sid : String) :
    seriesLookup sid (ddToList d) = if sid ∈ d.keys then some (d.vals sid) else none := by
  obtain ⟨ks, vals⟩ := d
  simp only [seriesLookup, ddToList]
  induction ks with
  | nil => simp
  | cons k ks ih =>
    by_cases h : k = sid
    · subst h
      simp [List.find?]
    · simp only [List.map_cons, List.find?]
      have hb : ((⟨k, vals k⟩ : SeriesData α).seriesID == sid) = false := by
        simp [h]
      rw [hb, ih]
      have h2 : (sid ∈ k :: ks) ↔ (sid ∈ ks) := by
        constructor
        · intro hx
          rcases List.mem_cons.mp hx with rfl | hx2
          · exact absurd rfl h
          · exact hx2
        · exact List.mem_cons_of_mem _
      by_cases h3 : sid ∈ ks
      · rw [if_pos h3, if_pos (h2.mpr h3)]
      · rw [if_neg h3, if_neg (fun hx => h3 (h2.mp hx))]

theorem foldl_runCalls {α : Type} (fetch : PhysCall → List (SeriesData α)) :
    ∀ (calls : List PhysCall) (d : DD α),
      calls.foldl (fun acc c => (fetch c).foldl addResult acc) d =
        ((calls.map fetch).flatten).foldl addResult d := by
  intro calls
  induction calls with
  | nil => intro d; rfl
  | cons c cs ih =>
    intro d
    rw [List.foldl_cons, ih, List.map_cons, List.flatten_cons, List.foldl_append]

/-- The merged result of a call sequence, looked up by series id:
the concatenation of that series' data chunks across all calls, in call
order; `none` when no call returned the series. -/
theorem runCalls_lookup {α : Type} (fetch : PhysCall → List (SeriesData α))
    (calls : List PhysCall) (sid : String) :
    seriesLookup sid (runCalls fetch calls) =
      if ((calls.map fetch).flatten).any (fun r => r.seriesID == sid) then
        some (concatFor sid ((calls.map fetch).flatten))
      else none := by
  unfold runCalls
  rw [foldl_runCalls, seriesLookup_ddToList]
  by_cases h : ∃ r ∈ (calls.map fetch).flatten, r.seriesID = sid
  · rw [if_pos, if_pos, vals_foldl]
    · simp [emptyDD]
    · simp only [List.any_eq_true, beq_iff_eq]
      exact h
    · exact (keys_foldl_mem _ emptyDD sid).mpr (Or.inr h)
  · rw [if_neg, if_neg]
    · simp only [List.any_eq_true, beq_iff_eq]
      exact h
    · intro hmem
      rcases (keys_foldl_mem _ emptyDD sid).mp hmem with h2 | h2
      · simp [emptyDD] at h2
      · exact h h2

theorem resolvedStart_ne_zero (sy0 ey0 : Option Int) (kr : Option String) (ty : Int)
    (hk : kr ≠ none)
    (hspan : (resolveYears sy0 ey0 kr ty).2 - (resolveYears sy0 ey0 kr ty).1 ≥ 20) :
    (resolveYears sy0 ey0 kr ty).1 ≠ 0 := by
  cases sy0 with
  | none =>
    exfalso
    simp only [resolveYears, resolveStart, if_neg hk] at hspan
    omega
  | some s =>
    by_cases hs : s = 0
    · exfalso
      subst hs
      simp only [resolveYears, resolveStart, eq_self_iff_true, if_true, if_neg hk] at hspan
      omega
    · simp only [resolveYears, resolveStart, if_neg hs]
      exact hs

theorem resolvedStart_zero_span (sy0 ey0 : Option Int) (kr : Option String) (ty : Int)
    (h0 : (resolveYears sy0 ey0 kr ty).1 = 0) :
    (resolveYears sy0 ey0 kr ty).2 ≤ 19 := by
  cases sy0 with
  | none =>
    by_cases hk : kr = none
    · simp only [resolveYears, resolveStart, if_pos hk] at h0 ⊢
      omega
    · simp only [resolveYears, resolveStart, if_neg hk] at h0 ⊢
      omega
  | some s =>
    by_cases hs : s = 0
    · subst hs
      by_cases hk : kr = none
      · simp only [resolveYears, resolveStart, eq_self_iff_true, if_true, if_pos hk] at h0 ⊢
        omega
      · simp only [resolveYears, resolveStart, eq_self_iff_true, if_true, if_neg hk] at h0 ⊢
        omega
    · simp only [resolveYears, resolveStart, if_neg hs] at h0
      exact absurd h0 hs

/-! ## Claim theorems -/

/-- C6: for every physical call's JSON envelope, every entry of the
`message` list is emitted as a warning, a `RuntimeError` embedding the
status is raised iff the status is not `"REQUEST_SUCCEEDED"`, and on
success the `Results.series` list is returned; the warnings are emitted
even when the call fails on status. -/
theorem c6_envelope_handling {α : Type} (resp : Envelope α) :
    (get_json_subset_handle resp).1 = resp.message ∧
    ((get_json_subset_handle resp).2 = Except.error ("Got status " ++ resp.status) ↔
      resp.status ≠ "REQUEST_SUCCEEDED") ∧
    (resp.status = "REQUEST_SUCCEEDED" →
      (get_json_subset_handle resp).2 = Except.ok resp.series) := by
  refine ⟨rfl, ?_, ?_⟩
  · by_cases h : resp.status = "REQUEST_SUCCEEDED"
    · simp [get_json_subset_handle, h]
    · simp [get_json_subset_handle, h]
  · intro h
    simp [get_json_subset_handle, h]

theorem c6_envelope_handling_witness :
    (get_json_subset_handle
      (⟨"REQUEST_FAILED", ["notice"], []⟩ : Envelope Obs)).2 =
      Except.error ("Got status " ++ "REQUEST_FAILED") :=
  (c6_envelope_handling (⟨"REQUEST_FAILED", ["notice"], []⟩ : Envelope Obs)).2.1.mpr
    (by decide)

/-- C2 counterexample: a caller-supplied `start_year = 0` (with
`end_year = 5`, no key, current year 2026) is "set", yet the resolution
step overwrites it with `end_year - 9 = -4`, contradicting the claim that
a set `start_year` is never overwritten. -/
theorem c2_counterexample :
    (resolveYears (some 0) (some 5) none 2026).1 = -4 ∧ ((-4 : Int) ≠ 0) := by
  constructor
  · rfl
  · decide

/-- C2 (amended): year resolution follows the claimed order, except that
the second step treats a supplied `start_year` of `0` (Python falsiness)
like an absent one; a caller-supplied *nonzero* `start_year` is never
overwritten. -/
theorem c2_resolution_amended (sy0 ey0 : Option Int) (kr : Option String) (ty : Int) :
    resolveYears sy0 ey0 kr ty = resolveYearsSpec sy0 ey0 kr ty ∧
    (∀ s : Int, sy0 = some s → s ≠ 0 → (resolveYears sy0 ey0 kr ty).1 = s) := by
  constructor
  · unfold resolveYears resolveYearsSpec resolveStart resolveEnd
    cases sy0 <;> cases ey0 <;> cases kr <;> simp
  · intro s hs hns
    subst hs
    unfold resolveYears resolveStart
    simp [hns]

theorem c2_resolution_amended_witness :
    (resolveYears (some 2000) (some 2020) none 2026).1 = 2000 :=
  (c2_resolution_amended (some 2000) (some 2020) none 2026).2 2000 rfl (by decide)

/-- C3: with no key anywhere and a resolved span of ten years or more,
`get_json_series` raises the `ValueError` and issues no physical call. -/
theorem c3_unkeyed_span_error {α : Type} (fetch : PhysCall → List (SeriesData α))
    (series : SeriesArg) (sy0 ey0 : Option Int) (ty : Int)
    (h : (resolveYears sy0 ey0 none ty).2 - (resolveYears sy0 ey0 none ty).1 ≥ 10) :
    get_json_series fetch series sy0 ey0 none none ty =
      ([], Except.error "Must use API key to retrieve more than 10 years") := by
  simp only [get_json_series, resolveKey]
  rw [if_pos]
  exact ⟨by trivial, h⟩

theorem c3_unkeyed_span_error_witness :
    get_json_series (fun _ => ([] : List (SeriesData Obs))) (SeriesArg.list ["LNS14000000"])
      (some 2000) (some 2020) none none 2026 =
      ([], Except.error "Must use API key to retrieve more than 10 years") :=
  c3_unkeyed_span_error _ _ _ _ _ (by decide)

/-- C9: a bare string series argument behaves exactly like the
one-element list, and every issued call's `seriesid` form field is the
string itself (not a comma-join of its characters). -/
theorem c9_str_equals_singleton {α : Type} (fetch : PhysCall → List (SeriesData α)) (s : String)
    (sy0 ey0 : Option Int) (key envKey : Option String) (ty : Int) :
    get_json_series fetch (SeriesArg.str s) sy0 ey0 key envKey ty =
      get_json_series fetch (SeriesArg.list [s]) sy0 ey0 key envKey ty ∧
    ∀ c ∈ (get_json_series fetch (SeriesArg.str s) sy0 ey0 key envKey ty).1,
      c.seriesid = s := by
  constructor
  · rfl
  · intro c hc
    exact (trace_seriesid fetch (SeriesArg.str s) sy0 ey0 key envKey ty c hc).trans
      (intercalate_singleton s)

theorem c9_str_equals_singleton_witness :
    get_json_series (fun _ => ([] : List (SeriesData Obs))) (SeriesArg.str "CUUR0000SA0")
        (some 2020) (some 2024) (some "k") none 2026 =
      get_json_series (fun _ => ([] : List (SeriesData Obs))) (SeriesArg.list ["CUUR0000SA0"])
        (some 2020) (some 2024) (some "k") none 2026 ∧
    ∀ c ∈ (get_json_series (fun _ => ([] : List (SeriesData Obs))) (SeriesArg.str "CUUR0000SA0")
        (some 2020) (some 2024) (some "k") none 2026).1,
      c.seriesid = "CUUR0000SA0" :=
  c9_str_equals_singleton (fun _ => ([] : List (SeriesData Obs))) "CUUR0000SA0"
    (some 2020) (some 2024) (some "k") none 2026

theorem month_err_ne_unknown (p : String) :
    ("ValueError: month must be in 1..12" : String) ≠ "Unknown period format: " ++ p := by
  intro h
  have h3 := congrArg String.data h
  rw [String.data_append] at h3
  rw [show ("ValueError: month must be in 1..12" : String).data =
      'V' :: ("alueError: month must be in 1..12" : String).data from rfl,
    show ("Unknown period format: " : String).data =
      'U' :: ("nknown period format: " : String).data from rfl] at h3
  rw [List.cons_append] at h3
  injection h3 with h4 h5
  exact absurd h4 (by decide)

/-- C10: the unrecognized-period `ValueError` of `parse_series` is decided
solely by the first character of the first observation's period code:
when that character is `A`, `Q` or `M`, it is never raised. -/
theorem c10_unknown_period_first_char (s : SeriesData Obs) (o : Obs) (rest : List Obs)
    (c : Char) (cs : List Char)
    (h1 : s.data = o :: rest) (h2 : o.period.data = c :: cs)
    (h3 : c = 'A' ∨ c = 'Q' ∨ c = 'M') :
    ∀ p : String, parse_series s ≠ Except.error ("Unknown period format: " ++ p) := by
  intro p
  unfold parse_series
  rw [h1]
  rcases h3 with rfl | rfl | rfl
  · simp [h2]
  · simp [h2]
  · simp [h2]
    split
    · simp
    · simp [month_err_ne_unknown p]

theorem c10_unknown_period_first_char_witness :
    parse_series ⟨"S", [⟨2020, "Q01", "1.0"⟩]⟩ ≠
      Except.error ("Unknown period format: " ++ "x") :=
  c10_unknown_period_first_char ⟨"S", [⟨2020, "Q01", "1.0"⟩]⟩ ⟨2020, "Q01", "1.0"⟩ []
    'Q' ['0', '1'] rfl rfl (Or.inr (Or.inl rfl)) "x"

/-- C1: with a key and a resolved span of at least twenty years,
`get_json_series` issues exactly the loop's windows — first
`[start, start+18]`, then consecutive windows advancing by
`sub_start = sub_end + 1`, `sub_end = min(sub_end + 20, end)` — which
cover `[start, end]` with no gaps or overlaps, and the merged data of
each series id is the concatenation of that series' observation chunks in
call-issue order. -/
theorem c1_pagination {α : Type} (fetch : PhysCall → List (SeriesData α)) (series : SeriesArg)
    (sy0 ey0 : Option Int) (key envKey : Option String) (ty : Int)
    (hk : resolveKey key envKey ≠ none)
    (hspan : (resolveYears sy0 ey0 (resolveKey key envKey) ty).2 -
        (resolveYears sy0 ey0 (resolveKey key envKey) ty).1 ≥ 20) :
    (get_json_series fetch series sy0 ey0 key envKey ty).1 =
      paginatedCalls (normalizeSeries series) (resolveKey key envKey)
        (resolveYears sy0 ey0 (resolveKey key envKey) ty).1
        (resolveYears sy0 ey0 (resolveKey key envKey) ty).2 ∧
    (get_json_series fetch series sy0 ey0 key envKey ty).2 =
      Except.ok (runCalls fetch
        (paginatedCalls (normalizeSeries series) (resolveKey key envKey)
          (resolveYears sy0 ey0 (resolveKey key envKey) ty).1
          (resolveYears sy0 ey0 (resolveKey key envKey) ty).2)) ∧
    (windowsGo (resolveYears sy0 ey0 (resolveKey key envKey) ty).2
        (resolveYears sy0 ey0 (resolveKey key envKey) ty).1
        ((resolveYears sy0 ey0 (resolveKey key envKey) ty).1 + 18)).head? =
      some ((resolveYears sy0 ey0 (resolveKey key envKey) ty).1,
        (resolveYears sy0 ey0 (resolveKey key envKey) ty).1 + 18) ∧
    List.Chain'
      (fun w w2 : Int × Int => w2.1 = w.2 + 1 ∧
        w2.2 = min (w.2 + 20) (resolveYears sy0 ey0 (resolveKey key envKey) ty).2)
      (windowsGo (resolveYears sy0 ey0 (resolveKey key envKey) ty).2
        (resolveYears sy0 ey0 (resolveKey key envKey) ty).1
        ((resolveYears sy0 ey0 (resolveKey key envKey) ty).1 + 18)) ∧
    (∀ y : Int,
      (∃ w ∈ windowsGo (resolveYears sy0 ey0 (resolveKey key envKey) ty).2
          (resolveYears sy0 ey0 (resolveKey key envKey) ty).1
          ((resolveYears sy0 ey0 (resolveKey key envKey) ty).1 + 18),
        w.1 ≤ y ∧ y ≤ w.2) ↔
      ((resolveYears sy0 ey0 (resolveKey key envKey) ty).1 ≤ y ∧
        y ≤ (resolveYears sy0 ey0 (resolveKey key envKey) ty).2)) ∧
    List.Pairwise (fun w w2 : Int × Int => w.2 < w2.1)
      (windowsGo (resolveYears sy0 ey0 (resolveKey key envKey) ty).2
        (resolveYears sy0 ey0 (resolveKey key envKey) ty).1
        ((resolveYears sy0 ey0 (resolveKey key envKey) ty).1 + 18)) ∧
    (∀ sid : String,
      seriesLookup sid
          (runCalls fetch
            (paginatedCalls (normalizeSeries series) (resolveKey key envKey)
              (resolveYears sy0 ey0 (resolveKey key envKey) ty).1
              (resolveYears sy0 ey0 (resolveKey key envKey) ty).2)) =
        if (((paginatedCalls (normalizeSeries series) (resolveKey key envKey)
              (resolveYears sy0 ey0 (resolveKey key envKey) ty).1
              (resolveYears sy0 ey0 (resolveKey key envKey) ty).2).map fetch).flatten).any
            (fun r => r.seriesID == sid) then
          some (concatFor sid
            (((paginatedCalls (normalizeSeries series) (resolveKey key envKey)
                (resolveYears sy0 ey0 (resolveKey key envKey) ty).1
                (resolveYears sy0 ey0 (resolveKey key envKey) ty).2).map fetch).flatten))
        else none) := by
  have hz := resolvedStart_ne_zero sy0 ey0 (resolveKey key envKey) ty hk hspan
  have hb : get_json_series fetch series sy0 ey0 key envKey ty =
      (paginatedCalls (normalizeSeries series) (resolveKey key envKey)
          (resolveYears sy0 ey0 (resolveKey key envKey) ty).1
          (resolveYears sy0 ey0 (resolveKey key envKey) ty).2,
        Except.ok (runCalls fetch
          (paginatedCalls (normalizeSeries series) (resolveKey key envKey)
            (resolveYears sy0 ey0 (resolveKey key envKey) ty).1
            (resolveYears sy0 ey0 (resolveKey key envKey) ty).2))) := by
    simp only [get_json_series]
    rw [if_neg, if_pos]
    · exact ⟨hz, hspan⟩
    · rintro ⟨hknone, -⟩
      exact hk hknone
  refine ⟨by rw [hb], by rw [hb], ?_, windowsGo_chain _ _ _, ?_, ?_, ?_⟩
  · rw [windowsGo_eq]
    rfl
  · intro y
    exact windowsGo_cover _ _ _ (by omega) (by omega) y
  · exact windowsGo_disjoint _ _ _ (by omega) (by omega)
  · intro sid
    exact runCalls_lookup fetch _ sid

theorem c1_pagination_witness :
    (get_json_series (fun c => [⟨"LNS", [(c.startyear, c.endyear)]⟩])
        (SeriesArg.list ["LNS"]) (some 2000) (some 2026) (some "k") none 2026).1 =
      [⟨"LNS", 2000, 2018, some "k"⟩, ⟨"LNS", 2019, 2026, some "k"⟩] ∧
    seriesLookup "LNS"
        (runCalls (fun c => [⟨"LNS", [(c.startyear, c.endyear)]⟩])
          (paginatedCalls ["LNS"] (some "k") 2000 2026)) =
      some [(2000, 2018), (2019, 2026)] := by
  have hwin : windowsGo 2026 2000 (2000 + 18) = [(2000, 2018), (2019, 2026)] := by
    rw [windowsGo_eq]
    norm_num
    rw [windowsGo_eq]
    norm_num
  have hpc : paginatedCalls (normalizeSeries (SeriesArg.list ["LNS"]))
      (resolveKey (some "k") none)
      (resolveYears (some 2000) (some 2026) (resolveKey (some "k") none) 2026).1
      (resolveYears (some 2000) (some 2026) (resolveKey (some "k") none) 2026).2 =
      [⟨"LNS", 2000, 2018, some "k"⟩, ⟨"LNS", 2019, 2026, some "k"⟩] := by
    show paginatedCalls ["LNS"] (some "k") 2000 2026 = _
    unfold paginatedCalls
    rw [hwin]
    decide
  have h := c1_pagination (fun c => [(⟨"LNS", [(c.startyear, c.endyear)]⟩ :
      SeriesData (Int × Int))]) (SeriesArg.list ["LNS"]) (some 2000) (some 2026)
    (some "k") none 2026 (by decide) (by decide)
  obtain ⟨h1, -, -, -, -, -, h7⟩ := h
  constructor
  · exact h1.trans hpc
  · exact (h7 "LNS").trans (by rw [hpc]; decide)

/-- C8: every physical call issued by `get_json_series` respects the
provider's per-call limit: a span of at most 9 years without a key and at
most 19 years with one. -/
theorem c8_per_call_span {α : Type} (fetch : PhysCall → List (SeriesData α))
    (series : SeriesArg) (sy0 ey0 : Option Int) (key envKey : Option String) (ty : Int) :
    ∀ c ∈ (get_json_series fetch series sy0 ey0 key envKey ty).1,
      (c.registrationkey = none → c.endyear - c.startyear ≤ 9) ∧
      (c.registrationkey ≠ none → c.endyear - c.startyear ≤ 19) := by
  intro c hc
  simp only [get_json_series] at hc
  split at hc
  · simp at hc
  next h1 =>
    split at hc
    next h2 =>
      have hk : resolveKey key envKey ≠ none := by
        intro hknone
        exact h1 ⟨hknone, by omega⟩
      simp only [paginatedCalls, List.mem_map] at hc
      obtain ⟨w, hw, rfl⟩ := hc
      have hspan := windowsGo_span _ _ _ (by omega) w hw
      exact ⟨fun hnone => absurd hnone hk, fun _ => hspan⟩
    next h2 =>
      simp only [List.mem_singleton] at hc
      subst hc
      constructor
      · intro hnone
        have h9 : ¬((resolveYears sy0 ey0 (resolveKey key envKey) ty).2 -
            (resolveYears sy0 ey0 (resolveKey key envKey) ty).1 ≥ 10) :=
          fun hx => h1 ⟨hnone, hx⟩
        simp only [buildRequest]
        omega
      · intro _
        by_cases hz : (resolveYears sy0 ey0 (resolveKey key envKey) ty).1 = 0
        · have := resolvedStart_zero_span sy0 ey0 (resolveKey key envKey) ty hz
          simp only [buildRequest]
          omega
        · have h20 : ¬((resolveYears sy0 ey0 (resolveKey key envKey) ty).2 -
              (resolveYears sy0 ey0 (resolveKey key envKey) ty).1 ≥ 20) :=
            fun hx => h2 ⟨hz, hx⟩
          simp only [buildRequest]
          omega

theorem c8_per_call_span_witness :
    ((⟨"LNS", 2020, 2024, some "k"⟩ : PhysCall).registrationkey = none →
      (⟨"LNS", 2020, 2024, some "k"⟩ : PhysCall).endyear -
        (⟨"LNS", 2020, 2024, some "k"⟩ : PhysCall).startyear ≤ 9) ∧
    ((⟨"LNS", 2020, 2024, some "k"⟩ : PhysCall).registrationkey ≠ none →
      (⟨"LNS", 2020, 2024, some "k"⟩ : PhysCall).endyear -
        (⟨"LNS", 2020, 2024, some "k"⟩ : PhysCall).startyear ≤ 19) :=
  c8_per_call_span (fun _ => ([] : List (SeriesData Obs))) (SeriesArg.str "LNS")
    (some 2020) (some 2024) (some "k") none 2026 ⟨"LNS", 2020, 2024, some "k"⟩
    (by decide)

instance entryLeTotal : IsTotal (Period × PyFloat) (fun a b => perLe a.1 b.1) := by
  constructor
  intro a b
  unfold perLe
  omega

instance entryLeTrans : IsTrans (Period × PyFloat) (fun a b => perLe a.1 b.1) := by
  constructor
  intro a b c hab hbc
  unfold perLe at *
  omega

theorem traverseParse_ids (l : List (SeriesData Obs))
    (cols : List (String × List (Period × String))) (h : traverseParse l = Except.ok cols) :
    cols.map (fun c => c.1) = l.map (fun r => r.seriesID) := by
  induction l generalizing cols with
  | nil =>
    simp only [traverseParse, Except.ok.injEq] at h
    subst h
    rfl
  | cons r t ih =>
    unfold traverseParse at h
    cases hp : parse_series r with
    | error m =>
      rw [hp] at h
      exact absurd h (by simp)
    | ok entries =>
      rw [hp] at h
      cases ht : traverseParse t with
      | error m =>
        rw [ht] at h
        exact absurd h (by simp)
      | ok tcols =>
        rw [ht] at h
        simp only [Except.ok.injEq] at h
        subst h
        simp [ih tcols ht]

/-- C5 (code bug): on a monthly series containing an `M13` row the spec
says the annual-average row is dropped before indexing, but the code
dates every row before filtering and the `M13` date string
(`"2020-13"`) is unparseable, so `parse_series` raises a date-parse
error at this input instead of returning the `M13`-free series. -/
theorem c5_m13_code_bug :
    parse_series ⟨"CEX", [⟨2020, "M01", "1.0"⟩, ⟨2020, "M13", "9.0"⟩]⟩ =
      Except.error "ValueError: month must be in 1..12" := by
  decide

theorem invalidIds_nil {α : Type} (rs : List (SeriesData α)) (h : ∀ r ∈ rs, r.data ≠ []) :
    invalidIds rs = [] := by
  unfold invalidIds
  rw [List.filter_eq_nil_iff.mpr]
  · rfl
  · intro r hr
    simp only [List.isEmpty_iff]
    exact h r hr

theorem filter_nonempty_self {α : Type} (rs : List (SeriesData α))
    (h : ∀ r ∈ rs, r.data ≠ []) :
    rs.filter (fun r => !r.data.isEmpty) = rs := by
  rw [List.filter_eq_self]
  intro r hr
  cases hd : r.data with
  | nil => exact absurd hd (h r hr)
  | cons a t => simp [hd]

/-- C7: a single bare-string request yields a bare value sequence (not a
keyed table) holding that series' column, sorted ascending by period
index, with every value float-cast. -/
theorem c7_single_bare_string (fetch : PhysCall → List (SeriesData Obs)) (s : String)
    (sy0 ey0 : Option Int) (key envKey : Option String) (errors : String) (ty : Int)
    (rs : List (SeriesData Obs)) (sid0 : String) (entries0 : List (Period × String))
    (restCols : List (String × List (Period × String)))
    (h1 : (get_json_series fetch (SeriesArg.str s) sy0 ey0 key envKey ty).2 = Except.ok rs)
    (h2 : ∀ r ∈ rs, r.data ≠ [])
    (h3 : traverseParse rs = Except.ok ((sid0, entries0) :: restCols)) :
    get_series fetch (SeriesArg.str s) sy0 ey0 key envKey errors ty =
      GetSeriesOutcome.bare false (sortEntries (floatCol entries0)) ∧
    List.Sorted (fun a b : Period × PyFloat => perLe a.1 b.1)
      (sortEntries (floatCol entries0)) := by
  constructor
  · simp only [get_series, h1]
    rw [if_pos (invalidIds_nil rs h2)]
    simp only [buildFrame, filter_nonempty_self rs h2, h3, List.map_cons]
  · exact List.sorted_insertionSort _ _

theorem c7_single_bare_string_witness :
    get_series (fun _ => [⟨"X", [⟨2020, "M02", "2.5"⟩, ⟨2019, "M05", "1.5"⟩]⟩])
        (SeriesArg.str "X") (some 2015) (some 2020) (some "k") none "raise" 2026 =
      GetSeriesOutcome.bare false
        [(Period.monthly 2019 5, PyFloat.ofString "1.5"),
         (Period.monthly 2020 2, PyFloat.ofString "2.5")] := by
  have h := c7_single_bare_string
    (fun _ => [⟨"X", [⟨2020, "M02", "2.5"⟩, ⟨2019, "M05", "1.5"⟩]⟩])
    "X" (some 2015) (some 2020) (some "k") none "raise" 2026
    [⟨"X", [⟨2020, "M02", "2.5"⟩, ⟨2019, "M05", "1.5"⟩]⟩]
    "X" [(Period.monthly 2020 2, "2.5"), (Period.monthly 2019 5, "1.5")] []
    (by decide) (by decide) (by decide)
  exact h.1.trans (by decide)

/-- C4: when some requested series come back empty, the `ValueError`
naming them is raised iff the request was a single bare string, or every
requested series is invalid, or the policy is `"raise"`; otherwise a
non-fatal warning is recorded and the resulting table holds exactly the
valid series. -/
theorem c4_empty_series_policy (fetch : PhysCall → List (SeriesData Obs)) (series : SeriesArg)
    (sy0 ey0 : Option Int) (key envKey : Option String) (errors : String) (ty : Int)
    (rs : List (SeriesData Obs)) (cols : List (String × List (Period × String)))
    (h1 : (get_json_series fetch series sy0 ey0 key envKey ty).2 = Except.ok rs)
    (hinv : invalidIds rs ≠ [])
    (hp : traverseParse (rs.filter (fun r => !r.data.isEmpty)) = Except.ok cols) :
    (get_series fetch series sy0 ey0 key envKey errors ty =
        GetSeriesOutcome.error (emptyMsg (invalidIds rs)) ↔
      raiseCond series (invalidIds rs) errors = true) ∧
    (raiseCond series (invalidIds rs) errors = false →
      get_series fetch series sy0 ey0 key envKey errors ty =
        GetSeriesOutcome.table true
          (cols.map (fun c => (c.1, sortEntries (floatCol c.2)))) ∧
      (cols.map (fun c => (c.1, sortEntries (floatCol c.2)))).map (fun c => c.1) =
        (rs.filter (fun r => !r.data.isEmpty)).map (fun r => r.seriesID)) := by
  have hbase : get_series fetch series sy0 ey0 key envKey errors ty =
      if raiseCond series (invalidIds rs) errors then
        GetSeriesOutcome.error (emptyMsg (invalidIds rs))
      else buildFrame series true rs := by
    simp only [get_series, h1]
    rw [if_neg hinv]
  have hwarn : raiseCond series (invalidIds rs) errors = false →
      buildFrame series true rs =
        GetSeriesOutcome.table true
          (cols.map (fun c => (c.1, sortEntries (floatCol c.2)))) := by
    intro hc
    cases series with
    | str s =>
      exfalso
      simp [raiseCond, seriesIsStr] at hc
    | list l =>
      simp only [buildFrame, hp]
  constructor
  · constructor
    · intro he
      cases hq : raiseCond series (invalidIds rs) errors
      · rw [hbase, if_neg (by simp [hq]), hwarn hq] at he
        exact absurd he (by simp)
      · rfl
    · intro hc
      rw [hbase, if_pos hc]
  · intro hcf
    refine ⟨?_, ?_⟩
    · rw [hbase, if_neg (by simp [hcf]), hwarn hcf]
    · rw [List.map_map]
      exact traverseParse_ids _ cols hp

theorem c4_empty_series_policy_witness :
    get_series
        (fun _ => [⟨"A", []⟩, ⟨"B", [⟨2020, "M01", "1"⟩]⟩])
        (SeriesArg.list ["A", "B"]) (some 2020) (some 2024) (some "k") none "ignore" 2026 =
      GetSeriesOutcome.table true
        [("B", [(Period.monthly 2020 1, PyFloat.ofString "1")])] := by
  have h := c4_empty_series_policy
    (fun _ => [⟨"A", []⟩, ⟨"B", [⟨2020, "M01", "1"⟩]⟩])
    (SeriesArg.list ["A", "B"]) (some 2020) (some 2024) (some "k") none "ignore" 2026
    [⟨"A", []⟩, ⟨"B", [⟨2020, "M01", "1"⟩]⟩]
    [("B", [(Period.monthly 2020 1, "1")])]
    (by decide) (by decide) (by decide)
  exact (h.2 (by decide)).1.trans (by decide)
